import Mathlib

/-!
Verification of the Quantaira webhook ingestion and query service.

The development shallowly embeds the Python source of the repository:
-  src/backend/server.py (norm_gateway, the /webhook handler, /vitals),
-  src/backend/routes/webhooks_tenovi.py (_check_secret, _normalize_one,
   the /webhooks/tenovi handler),
-  src/streamlit_app/common.py (split_blood_pressure),
-  src/backend/db.py (the webhook_bodies dedup table).

Python strings are modelled over their character lists with ASCII
semantics for str.strip / str.upper / str.lower / str.isalnum /
str.isdigit (the payloads and identifiers at issue are ASCII).
JSON values are modelled by the inductive JVal; Python "or" chains on
possibly-missing dict entries are modelled by truthiness on JVal, with
a missing key and JSON null both denoting Python None.  A Python
expression that can raise (float(...), .strip() on a non-string) is
modelled in Option, where none is an uncaught exception.
-/

namespace Quantaira

/-- ASCII model of the characters Python str.strip removes
(space, tab, newline, carriage return, vertical tab, form feed). -/
def pyIsSpace (c : Char) : Bool :=
  c.toNat == 32 || c.toNat == 9 || c.toNat == 10 || c.toNat == 13 ||
  c.toNat == 11 || c.toNat == 12

/-- ASCII digit 0-9. -/
def pyIsDigitCh (c : Char) : Bool := 48 ≤ c.toNat && c.toNat ≤ 57

/-- ASCII uppercase letter A-Z. -/
def pyIsUpperCh (c : Char) : Bool := 65 ≤ c.toNat && c.toNat ≤ 90

/-- ASCII lowercase letter a-z. -/
def pyIsLowerCh (c : Char) : Bool := 97 ≤ c.toNat && c.toNat ≤ 122

/-- ASCII model of Python str.isalnum per character. -/
def pyIsAlnumCh (c : Char) : Bool := pyIsDigitCh c || pyIsUpperCh c || pyIsLowerCh c

/-- ASCII model of Python str.upper per character. -/
def pyToUpperCh (c : Char) : Char :=
  if pyIsLowerCh c then Char.ofNat (c.toNat - 32) else c

/-- ASCII model of Python str.lower per character. -/
def pyToLowerCh (c : Char) : Char :=
  if pyIsUpperCh c then Char.ofNat (c.toNat + 32) else c

/-- Python str.strip on a character list. -/
def stripList (l : List Char) : List Char :=
  ((l.dropWhile pyIsSpace).reverse.dropWhile pyIsSpace).reverse

/-- Python str.strip. -/
def pyStrip (s : String) : String := String.mk (stripList s.data)

/-- Python str.upper (ASCII model). -/
def pyUpper (s : String) : String := String.mk (s.data.map pyToUpperCh)

/-- Python str.lower (ASCII model). -/
def pyLower (s : String) : String := String.mk (s.data.map pyToLowerCh)

/-- Embeds norm_gateway (src/backend/server.py lines 42-47):
`if not s: return None`, then strip, upper, keep only alphanumeric
characters, and `return keep or None`. -/
def norm_gateway : Option String → Option String
  | none => none
  | some s =>
    if s = "" then none
    else
      let k := ((stripList s.data).map pyToUpperCh).filter pyIsAlnumCh
      if k = [] then none else some (String.mk k)

/-! ## JSON values and Python value-level primitives -/

/-- JSON values as delivered to the Python handlers.  jnull doubles as
Python None: a missing dict key and a stored JSON null both read back as
None through dict.get.  Numbers are rationals (every payload number at
issue is integral). -/
inductive JVal where
  | jnull : JVal
  | jbool : Bool → JVal
  | jnum : Rat → JVal
  | jstr : String → JVal
  | jarr : List JVal → JVal
  | jobj : List (String × JVal) → JVal

/-- A parsed JSON object (Python dict). -/
abbrev JObj := List (String × JVal)

/-- Python truthiness of a JSON value. -/
def truthy : JVal → Bool
  | .jnull => false
  | .jbool b => b
  | .jnum q => decide (q ≠ 0)
  | .jstr s => decide (s ≠ "")
  | .jarr xs => !xs.isEmpty
  | .jobj kvs => !kvs.isEmpty

/-- Python dict.get: a missing key gives Python None (jnull). -/
def jget (r : JObj) (k : String) : JVal :=
  match r.find? (fun kv => kv.1 == k) with
  | some kv => kv.2
  | none => .jnull

/-- Python x or y: x if truthy else y. -/
def pyOrJ (a b : JVal) : JVal := if truthy a then a else b

/-- Python key-membership test (k in r). -/
def hasKey (r : JObj) (k : String) : Bool := r.any (fun kv => kv.1 == k)

/-- Python str() on a JSON value.  Scalars follow Python (None → "None",
True/False, integral rationals print as integers); container reprs are
abbreviated, which no code path at issue exercises. -/
def pyStr : JVal → String
  | .jnull => "None"
  | .jbool true => "True"
  | .jbool false => "False"
  | .jnum q => if q.den = 1 then toString q.num
               else toString q.num ++ "/" ++ toString q.den
  | .jstr s => s
  | .jarr _ => "[...]"
  | .jobj _ => "\x7b...\x7d"

/-- Remove the first dot (Python replace(".", "", 1) on the list form). -/
def removeFirstDot : List Char → List Char
  | [] => []
  | c :: cs => if c = '.' then cs else c :: removeFirstDot cs

/-- Python str.isdigit (ASCII): nonempty and all digits. -/
def pyIsDigitStr (l : List Char) : Bool := !l.isEmpty && l.all pyIsDigitCh

/-- Digits to a natural number. -/
def digitsToNat (l : List Char) : Nat := l.foldl (fun a c => a * 10 + (c.toNat - 48)) 0

/-- Split a character list on a separator character (Python str.split(sep)). -/
def splitOnCh (sep : Char) : List Char → List (List Char)
  | [] => [[]]
  | c :: cs =>
    let rest := splitOnCh sep cs
    if c = sep then [] :: rest
    else
      match rest with
      | [] => [[c]]
      | r :: rs => (c :: r) :: rs

/-- Model of Python float(s) on plain decimal strings: surrounding
whitespace stripped, digits with at most one dot (signs and exponents,
which no payload here uses, are not modelled); none models ValueError. -/
def parseFloatStr (s : String) : Option Rat :=
  match splitOnCh '.' (stripList s.data) with
  | [a] => if pyIsDigitStr a then some ((digitsToNat a : Nat) : Rat) else none
  | [a, b] =>
    if (a.all pyIsDigitCh && b.all pyIsDigitCh) && (!a.isEmpty || !b.isEmpty) then
      some (mkRat (digitsToNat a * 10 ^ b.length + digitsToNat b) (10 ^ b.length))
    else none
  | _ => none

/-- Python float() on a JSON value; none models TypeError/ValueError. -/
def pyFloatE : JVal → Option Rat
  | .jnum q => some q
  | .jbool b => some (if b then 1 else 0)
  | .jstr s => parseFloatStr s
  | _ => none

/-- Substring test: needle occurs in hay (Python "needle in hay"). -/
def isPrefixOfCh : List Char → List Char → Bool
  | [], _ => true
  | _ :: _, [] => false
  | a :: as, b :: bs => a == b && isPrefixOfCh as bs

/-- Python substring membership needle in hay. -/
def containsStr (hay needle : String) : Bool :=
  let rec go : List Char → Bool
    | [] => needle.data.isEmpty
    | c :: t => isPrefixOfCh needle.data (c :: t) || go t
  go hay.data

/-- Python s.replace("Z", "+00:00") on the character list. -/
def replaceZchars : List Char → List Char
  | [] => []
  | c :: cs =>
    if c = 'Z' then '+' :: '0' :: '0' :: ':' :: '0' :: '0' :: replaceZchars cs
    else c :: replaceZchars cs

/-- Python str.replace("Z", "+00:00"). -/
def replaceZ (s : String) : String := String.mk (replaceZchars s.data)

/-! ## The Tenovi normalizer (src/backend/routes/webhooks_tenovi.py) -/

/-- One normalized measurement row as appended by the Tenovi webhook
(keys of the dicts built in _normalize_one). -/
structure MRow where
  patient_id : String
  timestamp_utc : String
  metric : String
  value : JVal
  unit : JVal
  device_name : JVal
  source : String
  raw : JObj

/-- Embeds _normalize_one (src/backend/routes/webhooks_tenovi.py lines
25-80).  parseIso models datetime.fromisoformat(...).astimezone(utc)
followed by .isoformat() (none when fromisoformat raises); now models
datetime.now(timezone.utc).isoformat().  The overall none models an
uncaught exception: float() on a non-numeric systolic/diastolic or
spo2/pulse value, or .lower() on a truthy non-string type field. -/
def normalize_one (parseIso : String → Option String) (now : String)
    (r : JObj) (resolved_pid : String) : Option (List MRow) :=
  let ts := pyOrJ (jget r "timestamp_utc") (pyOrJ (jget r "timestamp")
    (pyOrJ (jget r "created_at") (jget r "dateTime")))
  let dtIso : String :=
    if truthy ts then
      match parseIso (replaceZ (pyStr ts)) with
      | some d => d
      | none => now
    else now
  let device := pyOrJ (jget r "device") (pyOrJ (jget r "deviceName")
    (pyOrJ (jget r "device_name") (.jstr "")))
  if hasKey r "systolic" && hasKey r "diastolic" then
    match pyFloatE (jget r "systolic"), pyFloatE (jget r "diastolic") with
    | some sys, some dia =>
      some [⟨resolved_pid, dtIso, "systolic_bp", .jnum sys, .jstr "mmHg", device, "tenovi", r⟩,
            ⟨resolved_pid, dtIso, "diastolic_bp", .jnum dia, .jstr "mmHg", device, "tenovi", r⟩]
    | _, _ => none
  else if hasKey r "metric" && hasKey r "value" then
    let v := jget r "value"
    let metric := pyLower (pyStrip (pyStr (jget r "metric")))
    if pyIsDigitStr (removeFirstDot (pyStr v).data) then
      match pyFloatE v with
      | some q =>
        some [⟨resolved_pid, dtIso, metric, .jnum q, jget r "unit", device, "tenovi", r⟩]
      | none => none
    else
      some [⟨resolved_pid, dtIso, metric, v, jget r "unit", device, "tenovi", r⟩]
  else
    match pyOrJ (jget r "type") (pyOrJ (jget r "measurementType") (.jstr "")) with
    | .jstr s =>
      let mt := pyLower s
      if mt == "spo2" || mt == "pulse" || mt == "heart_rate" then
        let metric := if containsStr mt "spo2" then "spo2" else "pulse"
        let val := pyOrJ (jget r "spo2") (pyOrJ (jget r "pulse")
          (pyOrJ (jget r "heart_rate") (jget r "value")))
        match val with
        | .jnull => some []
        | v =>
          match pyFloatE v with
          | some q =>
            some [⟨resolved_pid, dtIso, metric, .jnum q,
                   .jstr (if metric == "spo2" then "%" else "bpm"), device, "tenovi", r⟩]
          | none => none
      else some []
    | _ => none

/-! ## The dashboard blood-pressure split (src/streamlit_app/common.py) -/

/-- One dashboard dataframe row: the metric and value columns consulted
by split_blood_pressure plus the timestamp column it carries along. -/
structure PRow where
  metric : String
  value : JVal
  timestamp_utc : String

/-- Embeds split_blood_pressure (src/streamlit_app/common.py lines
33-61): a row whose lowercased metric contains "blood" and whose value
is a string containing "/" is split into systolic_bp / diastolic_bp
rows when the two halves parse as floats (a row failing the split is
dropped, the except/pass path); every other row passes through. -/
def split_blood_pressure (rows : List PRow) : List PRow :=
  rows.flatMap (fun row =>
    let metric := pyLower row.metric
    match row.value with
    | .jstr s =>
      if containsStr metric "blood" && containsStr s "/" then
        match splitOnCh '/' s.data with
        | [a, b] =>
          match parseFloatStr (String.mk a), parseFloatStr (String.mk b) with
          | some sy, some di =>
            [{row with metric := "systolic_bp", value := .jnum sy},
             {row with metric := "diastolic_bp", value := .jnum di}]
          | _, _ => []
        | _ => []
      else [row]
    | _ => [row])

/-! ## The backing store of the Tenovi webhook

Modelled from the spec: the module store imported by
src/backend/routes/webhooks_tenovi.py (upsert_patient_row, find_patient,
ensure_unassigned_patient, upsert_gateway_binding,
find_binding_by_gateway, append_vital_row) is not part of src/; only its
callers are.  Per the spec, the gateway directory maps a gateway id to at
most one patient with last-writer-wins upserts, and the placeholder
"unassigned" patient is created once and reused. -/

/-- Modelled from the spec: the durable store behind the Tenovi routes —
a patient directory, the gateway directory, and the append-only vitals
log. -/
structure Store where
  patients : List (String × String)
  bindings : List (String × String)
  vitals : List MRow

/-- Modelled from the spec: find_patient — membership in the patient
directory. -/
def find_patient (st : Store) (pid : String) : Bool :=
  st.patients.any (fun p => p.1 == pid)

/-- Modelled from the spec: upsert_patient_row — insert or update one
patient row (last writer wins on the name). -/
def upsert_patient_row (st : Store) (pid name : String) : Store :=
  if find_patient st pid then
    { st with patients := st.patients.map (fun p => if p.1 == pid then (pid, name) else p) }
  else
    { st with patients := st.patients ++ [(pid, name)] }

/-- Modelled from the spec: ensure_unassigned_patient — create (or
reuse) the placeholder "unassigned" patient and return its id. -/
def ensure_unassigned_patient (st : Store) : String × Store :=
  ("unassigned", upsert_patient_row st "unassigned" "Unassigned")

/-- Modelled from the spec: find_binding_by_gateway — look up the
patient bound to a gateway id. -/
def find_binding_by_gateway (st : Store) (gw : String) : Option String :=
  match st.bindings.find? (fun b => b.1 == gw) with
  | some b => some b.2
  | none => none

/-- Modelled from the spec: upsert_gateway_binding — bind a gateway id
to a patient, last writer wins. -/
def upsert_gateway_binding (st : Store) (gw pid : String) : Store :=
  if st.bindings.any (fun b => b.1 == gw) then
    { st with bindings := st.bindings.map (fun b => if b.1 == gw then (gw, pid) else b) }
  else
    { st with bindings := st.bindings ++ [(gw, pid)] }

/-- Modelled from the spec: append_vital_row — a pure append to the
measurement log. -/
def append_vital_row (st : Store) (row : MRow) : Store :=
  { st with vitals := st.vitals ++ [row] }

/-! ## The Tenovi webhook handler (src/backend/routes/webhooks_tenovi.py) -/

/-- Embeds the patient-resolution block of webhook_tenovi
(src/backend/routes/webhooks_tenovi.py lines 89-107): explicit patient
id first (registering it if unknown), then gateway binding lookup with
placeholder creation and binding on a miss, else the bare placeholder. -/
def resolveEvent (st : Store) (r : JObj) : String × Store :=
  let gw := pyOrJ (jget r "gatewayId") (pyOrJ (jget r "gateway_id")
    (pyOrJ (jget r "deviceId") (jget r "device_id")))
  let pid := pyOrJ (jget r "patientId") (jget r "patient_id")
  if truthy pid then
    let p := pyStr pid
    (p, if find_patient st p then st else upsert_patient_row st p ("Patient " ++ p))
  else if truthy gw then
    match find_binding_by_gateway st (pyStr gw) with
    | some bound => (bound, st)
    | none =>
      let (p, st1) := ensure_unassigned_patient st
      (p, upsert_gateway_binding st1 (pyStr gw) p)
  else
    ensure_unassigned_patient st

/-- Embeds the per-event body of the webhook_tenovi loop (lines
109-113): resolve, normalize, append each normalized row; none models
an exception aborting the request. -/
def processEvent (parseIso : String → Option String) (now : String)
    (st : Store) (r : JObj) : Option (Store × Nat) :=
  let (pid, st1) := resolveEvent st r
  match normalize_one parseIso now r pid with
  | none => none
  | some rows => some (rows.foldl append_vital_row st1, rows.length)

/-- Embeds webhook_tenovi (src/backend/routes/webhooks_tenovi.py lines
82-115) after the auth and parse steps: fold the events, accumulating
the inserted count; none models an exception aborting the request. -/
def webhook_tenovi (parseIso : String → Option String) (now : String)
    (st : Store) (events : List JObj) : Option (Store × Nat) :=
  match events with
  | [] => some (st, 0)
  | r :: rest =>
    match processEvent parseIso now st r with
    | none => none
    | some (st1, n) =>
      match webhook_tenovi parseIso now st1 rest with
      | none => none
      | some (st2, m) => some (st2, n + m)

/-! ## The main webhook handler (src/backend/server.py) -/

/-- One row of the vitals table as built by /webhook
(src/backend/server.py lines 357-366). -/
structure VRow where
  patient_id : String
  metric : String
  value : JVal
  timestamp_utc : String
  device_name : JVal
  gateway_raw : JVal
  gateway_norm : Option String
  raw : JObj

/-- Python (x or y or "").strip().lower() as used on the patient and
metric fields; .strip() on a truthy non-string raises (none). -/
def stripLowerE (v : JVal) : Option String :=
  match v with
  | .jstr s => some (pyLower (pyStrip s))
  | _ => none

/-- Embeds to_iso_utc (src/backend/server.py lines 28-40) on a JSON
value: falsy → now; else parse tolerantly (Z rewritten to +00:00),
falling back to now when parsing raises.  parseIso models
datetime.fromisoformat + astimezone(utc) + isoformat, now models
now_iso_utc(). -/
def to_iso_utc (parseIso : String → Option String) (now : String) (ts : JVal) : String :=
  if truthy ts then
    match parseIso (replaceZ (pyStr ts)) with
    | some d => d
    | none => now
  else now

/-- norm_gateway applied to the raw gateway JSON value as /webhook does:
a falsy value is absent (None), anything else is stringified and
normalized. -/
def norm_gatewayJ (v : JVal) : Option String :=
  if truthy v then norm_gateway (some (pyStr v)) else none

/-- The gateway-map fallback of /webhook (src/backend/server.py lines
347-353): when no explicit patient was given and the gateway
normalized, look the gateway up in gateway_map and take its bound
patient when the row exists and holds a truthy patient id (stripped and
lowercased). -/
def lookupPatient (gmap : List (String × Option String)) (gw_norm : Option String)
    (patient0 : String) : String :=
  if patient0 = "" then
    match gw_norm with
    | some n =>
      match gmap.find? (fun e => e.1 == n) with
      | some e =>
        match e.2 with
        | some mp => if mp ≠ "" then pyLower (pyStrip mp) else patient0
        | none => patient0
      | none => patient0
    | none => patient0
  else patient0

/-- Value mapping of /webhook (lines 337-340): prefer value, then
value_1, else None. -/
def valueOr1 (r : JObj) : JVal :=
  match jget r "value" with
  | .jnull => jget r "value_1"
  | v => v

/-- Embeds the per-event row construction of /webhook
(src/backend/server.py lines 333-366): resolve the patient (explicit
field, else gateway-map lookup, else the sentinel "unknown"), choose
value then value_1, normalize the timestamp, and build the vitals row.
gmap models the gateway_map table as gateway_norm → nullable patient_id;
none models an uncaught exception (.strip() on a truthy non-string
patient or metric field). -/
def buildRow (parseIso : String → Option String) (now : String)
    (gmap : List (String × Option String)) (r : JObj) : Option VRow :=
  match stripLowerE (pyOrJ (jget r "patient_id") (pyOrJ (jget r "patient") (.jstr ""))) with
  | none => none
  | some patient0 =>
  match stripLowerE (pyOrJ (jget r "metric") (pyOrJ (jget r "type") (.jstr ""))) with
  | none => none
  | some metric =>
    let ts := pyOrJ (jget r "timestamp_utc") (pyOrJ (jget r "timestamp") (jget r "time"))
    let device := pyOrJ (jget r "device_name") (jget r "device")
    let gw_raw := pyOrJ (jget r "gateway_id") (pyOrJ (jget r "gateway")
      (pyOrJ (jget r "gateway_mac") (jget r "mac")))
    let gw_norm := norm_gatewayJ gw_raw
    let patient1 := lookupPatient gmap gw_norm patient0
    let patient := if patient1 = "" then "unknown" else patient1
    some ⟨patient, metric, valueOr1 r, to_iso_utc parseIso now ts, device, gw_raw, gw_norm, r⟩

/-- The success response of /webhook. -/
structure WResp where
  ok : Bool
  inserted : Nat

/-- HTTP-level failures of /webhook: the 401 of the key check, the JSON
decode error req.json() raises on an empty or malformed body (an
unhandled server error, not a success response), and the attribute
error a non-object event raises. -/
inductive HFail where
  | unauthorized : HFail
  | jsonDecodeError : HFail
  | attributeError : HFail

/-- Python (a or b or c) on strings: first nonempty. -/
def pyOrS (a b : String) : String := if a ≠ "" then a else b

/-- Embeds _get_webhook_key (src/backend/server.py lines 313-314). -/
def get_webhook_key (x_webhook_key x_auth_key auth_key : String) : String :=
  pyStrip (pyOrS x_webhook_key (pyOrS x_auth_key auth_key))

/-- Row construction over the event list (the for-loop of /webhook); an
event that is not a JSON object raises on .get. -/
def buildRows (parseIso : String → Option String) (now : String)
    (gmap : List (String × Option String)) : List JVal → Option (List VRow)
  | [] => some []
  | e :: rest =>
    match e with
    | .jobj r =>
      match buildRow parseIso now gmap r with
      | none => none
      | some row =>
        match buildRows parseIso now gmap rest with
        | none => none
        | some rows => some (row :: rows)
    | _ => none

/-- Embeds the /webhook handler (src/backend/server.py lines 316-374):
key check, body parse, per-event row construction, single bulk insert
into vitals, and the ok/inserted response.  jsonParse models json.loads
on the raw body (none when it raises, as it does on a zero-length
body).  An error result models an HTTP error response: the transaction
never commits, so no row is inserted and no state changes. -/
def webhook (cfgKey : String) (x_webhook_key x_auth_key auth_key : String)
    (jsonParse : String → Option JVal) (parseIso : String → Option String)
    (now : String) (body : String) (gmap : List (String × Option String))
    (vitals : List VRow) : Except HFail (List VRow × WResp) :=
  let sent := get_webhook_key x_webhook_key x_auth_key auth_key
  if cfgKey ≠ "" ∧ sent ≠ cfgKey then .error .unauthorized
  else
    match jsonParse body with
    | none => .error .jsonDecodeError
    | some payload =>
      let events := match payload with
        | .jarr xs => xs
        | v => [v]
      match buildRows parseIso now gmap events with
      | none => .error .attributeError
      | some rows => .ok (vitals ++ rows, ⟨true, rows.length⟩)

/-! ## The /vitals query (src/backend/server.py lines 376-417) -/

/-- Lexicographic codepoint comparison of character lists: the model of
SQL ORDER BY / >= comparison on the TEXT timestamp column. -/
def strLeL : List Char → List Char → Bool
  | [], _ => true
  | _ :: _, [] => false
  | a :: as, b :: bs =>
    if a.toNat < b.toNat then true
    else if a.toNat = b.toNat then strLeL as bs
    else false

/-- String order used on timestamp_utc. -/
def strLe (s t : String) : Bool := strLeL s.data t.data

/-- Insertion into a list ordered by a boolean relation. -/
def insertBy {α : Type} (le : α → α → Bool) (a : α) : List α → List α
  | [] => [a]
  | b :: bs => if le a b then a :: b :: bs else b :: insertBy le a bs

/-- Insertion sort by a boolean relation: the model of ORDER BY. -/
def sortBy {α : Type} (le : α → α → Bool) : List α → List α
  | [] => []
  | a :: as => insertBy le a (sortBy le as)

/-- One projected row of the /vitals response (the SELECT list of
src/backend/server.py line 399). -/
structure QRow where
  patient_id : String
  metric : String
  value : JVal
  timestamp_utc : String
  device_name : JVal
  gateway_norm : Option String

/-- The SELECT column projection of /vitals. -/
def projQ (v : VRow) : QRow :=
  ⟨v.patient_id, v.metric, v.value, v.timestamp_utc, v.device_name, v.gateway_norm⟩

/-- The WHERE clause of /vitals (src/backend/server.py lines 383-397)
on one stored row: patient filter (lowercased column against the
stripped+lowercased parameter, only for a truthy parameter), exact
metric filter against the stripped+lowercased parameter, and the hours
cutoff timestamp_utc >= cut.  cut stands for to_iso_utc(now - hours),
present only when hours > 0. -/
def vitalsWhere (pid metric : Option String) (cut : Option String)
    (row : VRow) : Bool :=
  (match pid with
   | some p => if p ≠ "" then pyLower row.patient_id == pyLower (pyStrip p) else true
   | none => true) &&
  (match metric with
   | some m => if m ≠ "" then row.metric == pyLower (pyStrip m) else true
   | none => true) &&
  (match cut with
   | some c => strLe c row.timestamp_utc
   | none => true)

/-- Embeds get_vitals (src/backend/server.py lines 376-417): filter the
vitals table, ORDER BY timestamp_utc DESC, LIMIT max(1, min(limit,
5000)), and project the selected columns. -/
def get_vitals (rows : List VRow) (pid metric : Option String)
    (cut : Option String) (lim : Int) : List QRow :=
  ((sortBy (fun a b => strLe b.timestamp_utc a.timestamp_utc)
      (rows.filter (vitalsWhere pid metric cut))).take
    (Int.toNat (max 1 (min lim 5000)))).map projQ

/-! ## The idempotency guard

Modelled from the spec: the ingestion handler that uses the
webhook_bodies dedup table is not part of src/; src/backend/db.py only
declares the table ("to dedupe body deliveries": body_sha TEXT PRIMARY
KEY, received_utc).  Per the spec, the endpoint computes a content hash
of the raw request body, consults the guard before parsing, and on a
seen hash returns success with duplicate=true and inserts nothing; it
marks the hash seen when the delivery is processed.  The hash is
modelled as the raw body itself (an injective content hash); the
parse-and-normalize step is a parameter, since idempotency holds
whatever it produces. -/

/-- Modelled from the spec: the guard state — the set of seen body
hashes (webhook_bodies) and the measurement log. -/
structure IngestState where
  seen : List String
  rows : List MRow

/-- Modelled from the spec: the ingestion response with its
duplicate marker. -/
structure IngestResp where
  ok : Bool
  inserted : Nat
  duplicate : Bool

/-- Modelled from the spec: one webhook delivery through the
idempotency guard — if the body's hash was seen, acknowledge with
duplicate=true and insert nothing (before any parsing); otherwise
parse/normalize the body, append its records, mark the hash seen. -/
def ingestBody (normalizeBody : String → List MRow) (st : IngestState)
    (body : String) : IngestState × IngestResp :=
  if body ∈ st.seen then
    (st, ⟨true, 0, true⟩)
  else
    let recs := normalizeBody body
    (⟨body :: st.seen, st.rows ++ recs⟩, ⟨true, recs.length, false⟩)

/-! ## Theorems -/

/-! ### Character-level facts used for the norm_gateway claims -/

theorem pyIsLowerCh_iff (c : Char) :
    pyIsLowerCh c = true ↔ 97 ≤ c.toNat ∧ c.toNat ≤ 122 := by
  simp [pyIsLowerCh]

theorem pyIsUpperCh_iff (c : Char) :
    pyIsUpperCh c = true ↔ 65 ≤ c.toNat ∧ c.toNat ≤ 90 := by
  simp [pyIsUpperCh]

theorem pyIsDigitCh_iff (c : Char) :
    pyIsDigitCh c = true ↔ 48 ≤ c.toNat ∧ c.toNat ≤ 57 := by
  simp [pyIsDigitCh]

theorem toNat_pyToUpperCh (c : Char) :
    (pyToUpperCh c).toNat = if pyIsLowerCh c then c.toNat - 32 else c.toNat := by
  unfold pyToUpperCh
  by_cases h : pyIsLowerCh c = true
  · rw [if_pos h, if_pos h]
    rcases (pyIsLowerCh_iff c).mp h with ⟨h1, h2⟩
    have hv : (c.toNat - 32).isValidChar := by
      left
      omega
    rw [Char.ofNat, dif_pos hv]
    rfl
  · rw [if_neg h, if_neg h]

theorem pyIsAlnumCh_iff (c : Char) :
    pyIsAlnumCh c = true ↔
      (48 ≤ c.toNat ∧ c.toNat ≤ 57) ∨ (65 ≤ c.toNat ∧ c.toNat ≤ 90) ∨
      (97 ≤ c.toNat ∧ c.toNat ≤ 122) := by
  simp [pyIsAlnumCh, pyIsDigitCh, pyIsUpperCh, pyIsLowerCh, or_assoc]

theorem pyIsAlnumCh_pyToUpperCh (c : Char) :
    pyIsAlnumCh (pyToUpperCh c) = pyIsAlnumCh c := by
  have ht := toNat_pyToUpperCh c
  rw [Bool.eq_iff_iff, pyIsAlnumCh_iff, pyIsAlnumCh_iff]
  by_cases h : pyIsLowerCh c = true
  · rw [if_pos h] at ht
    rcases (pyIsLowerCh_iff c).mp h with ⟨h1, h2⟩
    rw [ht]
    omega
  · rw [if_neg h] at ht
    rw [ht]

theorem pyIsLowerCh_pyToUpperCh (c : Char) :
    pyIsLowerCh (pyToUpperCh c) = false := by
  have ht := toNat_pyToUpperCh c
  cases hb : pyIsLowerCh (pyToUpperCh c) with
  | false => rfl
  | true =>
    exfalso
    rcases (pyIsLowerCh_iff _).mp hb with ⟨h1, h2⟩
    by_cases h : pyIsLowerCh c = true
    · rw [if_pos h] at ht
      rcases (pyIsLowerCh_iff c).mp h with ⟨h3, h4⟩
      omega
    · rw [if_neg h] at ht
      exact h ((pyIsLowerCh_iff c).mpr (by omega))

theorem pyToUpperCh_eq_self_of_not_lower (c : Char) (h : pyIsLowerCh c = false) :
    pyToUpperCh c = c := by
  unfold pyToUpperCh
  rw [if_neg (by simp [h])]

theorem pyIsSpace_eq_false_of_alnum (c : Char) (h : pyIsAlnumCh c = true) :
    pyIsSpace c = false := by
  simp only [pyIsAlnumCh, pyIsDigitCh, pyIsUpperCh, pyIsLowerCh,
    Bool.or_eq_true, Bool.and_eq_true, decide_eq_true_eq] at h
  simp only [pyIsSpace, Bool.or_eq_false_iff, beq_eq_false_iff_ne, ne_eq]
  omega

theorem dropWhile_eq_self_of_forall {p : Char → Bool} {l : List Char}
    (h : ∀ c ∈ l, p c = false) : l.dropWhile p = l := by
  cases l with
  | nil => rfl
  | cons a as => simp [List.dropWhile, h a (by simp)]

theorem stripList_eq_self_of_alnum {l : List Char}
    (h : ∀ c ∈ l, pyIsAlnumCh c = true) : stripList l = l := by
  unfold stripList
  rw [dropWhile_eq_self_of_forall (fun c hc => pyIsSpace_eq_false_of_alnum c (h c hc))]
  rw [dropWhile_eq_self_of_forall (fun c hc =>
    pyIsSpace_eq_false_of_alnum c (h c (List.mem_reverse.mp hc)))]
  exact List.reverse_reverse l

theorem map_pyToUpperCh_eq_self {l : List Char}
    (h : ∀ c ∈ l, pyIsLowerCh c = false) : l.map pyToUpperCh = l := by
  induction l with
  | nil => rfl
  | cons a as ih =>
    simp only [List.map_cons, List.cons.injEq]
    exact ⟨pyToUpperCh_eq_self_of_not_lower a (h a (by simp)),
      ih (fun c hc => h c (by simp [hc]))⟩

/-- Every character of a norm_gateway result is an alphanumeric character
fixed by upper-casing (and in particular not lowercase). -/
theorem norm_gateway_char_canonical (x : Option String) (r : String)
    (hr : norm_gateway x = some r) :
    r.data ≠ [] ∧ ∀ c ∈ r.data, pyIsAlnumCh c = true ∧ pyIsLowerCh c = false := by
  cases x with
  | none => simp [norm_gateway] at hr
  | some s =>
    by_cases hs : s = ""
    · simp [norm_gateway, hs] at hr
    · simp only [norm_gateway, if_neg hs] at hr
      by_cases hk0 : ((stripList s.data).map pyToUpperCh).filter pyIsAlnumCh = []
      · rw [if_pos hk0] at hr
        cases hr
      · rw [if_neg hk0] at hr
        have hrk : r = String.mk (((stripList s.data).map pyToUpperCh).filter pyIsAlnumCh) :=
          (Option.some.inj hr).symm
        subst hrk
        refine ⟨hk0, ?_⟩
        intro c hc
        have hc' : c ∈ ((stripList s.data).map pyToUpperCh).filter pyIsAlnumCh := hc
        have hmem := List.of_mem_filter hc'
        have hmap := List.mem_of_mem_filter hc'
        rcases List.mem_map.mp hmap with ⟨d, _, hd⟩
        refine ⟨hmem, ?_⟩
        rw [← hd]
        exact pyIsLowerCh_pyToUpperCh d

/-- If every character of s is canonical (alphanumeric, not lowercase) and
s is nonempty, norm_gateway maps it to itself. -/
theorem norm_gateway_fixed (s : String) (hne : s.data ≠ [])
    (h : ∀ c ∈ s.data, pyIsAlnumCh c = true ∧ pyIsLowerCh c = false) :
    norm_gateway (some s) = some s := by
  have hs : s ≠ "" := by
    intro he
    apply hne
    rw [he]
  simp only [norm_gateway, if_neg hs]
  have h1 : stripList s.data = s.data :=
    stripList_eq_self_of_alnum (fun c hc => (h c hc).1)
  have h2 : s.data.map pyToUpperCh = s.data :=
    map_pyToUpperCh_eq_self (fun c hc => (h c hc).2)
  have h3 : s.data.filter pyIsAlnumCh = s.data :=
    List.filter_eq_self.mpr (fun c hc => (h c hc).1)
  rw [h1, h2, h3, if_neg hne]

/-- C8: gateway-id normalization is idempotent, and every non-None result
is canonical: nonempty, all characters alphanumeric and not lowercase
(i.e. uppercase letters and digits; see norm_gateway_range).
First conjunct: norm_gateway (norm_gateway x) = norm_gateway x for every
input. Second conjunct: canonicity of any some-result. -/
theorem norm_gateway_idempotent_canonical (x : Option String) :
    norm_gateway (norm_gateway x) = norm_gateway x ∧
    (∀ r, norm_gateway x = some r →
      r.data ≠ [] ∧ ∀ c ∈ r.data, pyIsAlnumCh c = true ∧ pyIsLowerCh c = false) := by
  constructor
  · cases hx : norm_gateway x with
    | none => rfl
    | some r =>
      rcases norm_gateway_char_canonical x r hx with ⟨hne, hall⟩
      exact norm_gateway_fixed r hne hall
  · intro r hr
    exact norm_gateway_char_canonical x r hr

/-- Witness for C8 at the concrete input " ab-12 ":
normalization gives "AB12", is idempotent there, and the result is
canonical. -/
theorem norm_gateway_idempotent_canonical_witness :
    norm_gateway (some " ab-12 ") = some "AB12" ∧
    norm_gateway (norm_gateway (some " ab-12 ")) = norm_gateway (some " ab-12 ") ∧
    ("AB12" : String).data ≠ [] ∧
    ∀ c ∈ ("AB12" : String).data, pyIsAlnumCh c = true ∧ pyIsLowerCh c = false := by
  have h := norm_gateway_idempotent_canonical (some " ab-12 ")
  have he : norm_gateway (some " ab-12 ") = some "AB12" := by decide
  exact ⟨he, h.1, h.2 "AB12" he⟩

/-- Helper for C10: characters of a norm_gateway result are uppercase
letters or digits. -/
theorem norm_gateway_range (x : Option String) (r : String)
    (hr : norm_gateway x = some r) :
    ∀ c ∈ r.data, pyIsUpperCh c = true ∨ pyIsDigitCh c = true := by
  intro c hc
  rcases (norm_gateway_char_canonical x r hr).2 c hc with ⟨ha, hl⟩
  rw [pyIsAlnumCh_iff] at ha
  rw [pyIsUpperCh_iff, pyIsDigitCh_iff]
  have hl' : ¬(97 ≤ c.toNat ∧ c.toNat ≤ 122) := by
    intro hcon
    rw [(pyIsLowerCh_iff c).mpr hcon] at hl
    cases hl
  omega

theorem mem_dropWhile_of_mem {p : Char → Bool} {l : List Char} {c : Char}
    (hc : c ∈ l) (hp : p c = false) : c ∈ l.dropWhile p := by
  induction l with
  | nil => cases hc
  | cons a as ih =>
    by_cases ha : p a = true
    · rw [List.dropWhile_cons_of_pos ha]
      rcases List.mem_cons.mp hc with h | h
      · rw [h] at hp
        rw [hp] at ha
        cases ha
      · exact ih h
    · rw [List.dropWhile_cons_of_neg ha]
      exact hc

theorem mem_stripList_of_mem {l : List Char} {c : Char}
    (hc : c ∈ l) (hs : pyIsSpace c = false) : c ∈ stripList l := by
  unfold stripList
  rw [List.mem_reverse]
  apply mem_dropWhile_of_mem _ hs
  rw [List.mem_reverse]
  exact mem_dropWhile_of_mem hc hs

theorem mem_of_dropWhile_mem {p : Char → Bool} {l : List Char} {c : Char}
    (h : c ∈ l.dropWhile p) : c ∈ l := by
  induction l with
  | nil => simp at h
  | cons a as ih =>
    by_cases ha : p a = true
    · rw [List.dropWhile_cons_of_pos ha] at h
      exact List.mem_cons.mpr (Or.inr (ih h))
    · rw [List.dropWhile_cons_of_neg ha] at h
      exact h

theorem mem_of_mem_stripList {l : List Char} {c : Char}
    (h : c ∈ stripList l) : c ∈ l := by
  unfold stripList at h
  have h1 := List.mem_reverse.mp h
  have h2 := mem_of_dropWhile_mem h1
  have h3 := List.mem_reverse.mp h2
  exact mem_of_dropWhile_mem h3

theorem norm_gateway_none_iff (t : String) :
    norm_gateway (some t) = none ↔ ∀ c ∈ t.data, pyIsAlnumCh c = false := by
  constructor
  · intro h c hc
    cases hx : pyIsAlnumCh c with
    | false => rfl
    | true =>
      exfalso
      have ht : t ≠ "" := by
        intro he
        rw [he] at hc
        simp at hc
      simp only [norm_gateway, if_neg ht] at h
      have hmem : pyToUpperCh c ∈
          ((stripList t.data).map pyToUpperCh).filter pyIsAlnumCh := by
        apply List.mem_filter.mpr
        refine ⟨List.mem_map.mpr
          ⟨c, mem_stripList_of_mem hc (pyIsSpace_eq_false_of_alnum c hx), rfl⟩, ?_⟩
        rw [pyIsAlnumCh_pyToUpperCh]
        exact hx
      have hk0 : ((stripList t.data).map pyToUpperCh).filter pyIsAlnumCh ≠ [] := by
        intro hnil
        rw [hnil] at hmem
        cases hmem
      rw [if_neg hk0] at h
      cases h
  · intro h
    by_cases ht : t = ""
    · simp [norm_gateway, ht]
    · simp only [norm_gateway, if_neg ht]
      have hk0 : ((stripList t.data).map pyToUpperCh).filter pyIsAlnumCh = [] := by
        apply List.filter_eq_nil_iff.mpr
        intro c hc
        rcases List.mem_map.mp hc with ⟨d, hd, hdc⟩
        have hdt : d ∈ t.data := mem_of_mem_stripList hd
        rw [← hdc, pyIsAlnumCh_pyToUpperCh]
        simp [h d hdt]
      rw [if_pos hk0]

/-- C10: norm_gateway never returns the empty string.  None and inputs
with no alphanumeric character (in particular "" and punctuation-only
ids) map to None; any some-result is a non-empty string of uppercase
letters and digits only. -/
theorem norm_gateway_classification :
    norm_gateway none = none ∧
    (∀ t : String, norm_gateway (some t) = none ↔ ∀ c ∈ t.data, pyIsAlnumCh c = false) ∧
    (∀ x r, norm_gateway x = some r →
      r ≠ "" ∧ ∀ c ∈ r.data, pyIsUpperCh c = true ∨ pyIsDigitCh c = true) := by
  refine ⟨rfl, norm_gateway_none_iff, ?_⟩
  intro x r hr
  refine ⟨?_, norm_gateway_range x r hr⟩
  have h := (norm_gateway_char_canonical x r hr).1
  intro he
  apply h
  rw [he]

/-- Witness for C10: the punctuation-only id "--!" normalizes to None,
and "gw-7" normalizes to the non-empty canonical "GW7". -/
theorem norm_gateway_classification_witness :
    norm_gateway (some "--!") = none ∧
    norm_gateway (some "gw-7") = some "GW7" ∧
    (("GW7" : String) ≠ "" ∧ ∀ c ∈ ("GW7" : String).data,
      pyIsUpperCh c = true ∨ pyIsDigitCh c = true) := by
  have h := norm_gateway_classification
  exact ⟨(h.2.1 "--!").mpr (by decide), by decide,
    h.2.2 (some "gw-7") "GW7" (by decide)⟩

/-- C2 counterexample: normalizing the single payload with the lone key
"bp" holding "120/80" through _normalize_one yields zero records, not
two — the payload matches none of the recognized shapes (no
systolic/diastolic pair, no metric/value pair, no recognized type). -/
theorem normalize_one_bp_string_counterexample :
    normalize_one (fun _ => none) "2024-01-01T00:00:00+00:00"
      [("bp", JVal.jstr "120/80")] "p1" = some [] := by
  rfl

/-- C2 amended: the systolic/diastolic field form splits into exactly
two records, systolic_bp and diastolic_bp, unit mmHg, both carrying the
same timestamp; and the dashboard-side split_blood_pressure splits a
blood_pressure row with value "120/80" into the two records with values
120 and 80 sharing the row's timestamp.  The single-field form
\x7b"bp": "120/80"\x7d matches no recognized shape and yields zero
records (see the counterexample). -/
theorem bp_split_two_records (parseIso : String → Option String)
    (now pid : String) (q1 q2 : Rat) :
    normalize_one parseIso now [("systolic", .jnum q1), ("diastolic", .jnum q2)] pid =
      some [⟨pid, now, "systolic_bp", .jnum q1, .jstr "mmHg", .jstr "", "tenovi",
             [("systolic", .jnum q1), ("diastolic", .jnum q2)]⟩,
            ⟨pid, now, "diastolic_bp", .jnum q2, .jstr "mmHg", .jstr "", "tenovi",
             [("systolic", .jnum q1), ("diastolic", .jnum q2)]⟩] ∧
    split_blood_pressure [⟨"blood_pressure", .jstr "120/80", now⟩] =
      [⟨"systolic_bp", .jnum (((120 : Nat) : Rat)), now⟩,
       ⟨"diastolic_bp", .jnum (((80 : Nat) : Rat)), now⟩] := by
  exact ⟨rfl, rfl⟩

/-! ### Store facts -/

theorem upsert_patient_row_vitals (st : Store) (pid name : String) :
    (upsert_patient_row st pid name).vitals = st.vitals := by
  unfold upsert_patient_row
  split <;> rfl

theorem upsert_gateway_binding_vitals (st : Store) (gw pid : String) :
    (upsert_gateway_binding st gw pid).vitals = st.vitals := by
  unfold upsert_gateway_binding
  split <;> rfl

/-- Patient resolution never touches the measurement log. -/
theorem resolveEvent_vitals (st : Store) (r : JObj) :
    (resolveEvent st r).2.vitals = st.vitals := by
  simp only [resolveEvent]
  split
  · dsimp only
    split
    · rfl
    · exact upsert_patient_row_vitals ..
  · split
    · split
      · rfl
      · simp only [ensure_unassigned_patient]
        rw [upsert_gateway_binding_vitals, upsert_patient_row_vitals]
    · simp only [ensure_unassigned_patient]
      exact upsert_patient_row_vitals ..

theorem find?_map_upsert (l : List (String × String)) (g p : String)
    (h : l.any (fun b => b.1 == g) = true) :
    (l.map (fun b => if b.1 == g then (g, p) else b)).find? (fun b => b.1 == g) =
      some (g, p) := by
  induction l with
  | nil => cases h
  | cons b bs ih =>
    by_cases hb : (b.1 == g) = true
    · simp only [List.map_cons, if_pos hb]
      rw [List.find?_cons_of_pos _ (by simp)]
    · simp only [List.map_cons, if_neg hb]
      rw [List.find?_cons_of_neg _ (by simpa using hb)]
      apply ih
      rw [List.any_cons] at h
      rcases Bool.or_eq_true_iff.mp h with h | h
      · exact absurd h hb
      · exact h

theorem find?_append_upsert (l : List (String × String)) (g p : String)
    (h : l.any (fun b => b.1 == g) = false) :
    (l ++ [(g, p)]).find? (fun b => b.1 == g) = some (g, p) := by
  rw [List.find?_append]
  have h1 : l.find? (fun b => b.1 == g) = none := by
    rw [List.find?_eq_none]
    intro x hx
    rw [List.any_eq_false] at h
    exact h x hx
  rw [h1]
  simp

/-- After upserting a binding for g, looking g up finds it. -/
theorem find_binding_upsert_self (st : Store) (g p : String) :
    find_binding_by_gateway (upsert_gateway_binding st g p) g = some p := by
  unfold find_binding_by_gateway upsert_gateway_binding
  by_cases h : st.bindings.any (fun b => b.1 == g) = true
  · rw [if_pos h]
    dsimp only
    rw [find?_map_upsert st.bindings g p h]
  · rw [if_neg h]
    dsimp only
    rw [find?_append_upsert st.bindings g p (Bool.eq_false_iff.mpr h)]

/-- Evaluation of resolveEvent on an event carrying only a gateway id. -/
theorem resolveEvent_gateway_only (st : Store) (g : String) (hg : g ≠ "") :
    resolveEvent st [("gatewayId", JVal.jstr g)] =
      match find_binding_by_gateway st g with
      | some bound => (bound, st)
      | none =>
        ("unassigned",
          upsert_gateway_binding (upsert_patient_row st "unassigned" "Unassigned")
            g "unassigned") := by
  have htr : truthy (JVal.jstr g) = true := by
    simp [truthy, hg]
  simp only [resolveEvent, jget, pyOrJ, ensure_unassigned_patient]
  simp [truthy, hg, pyStr]

/-- C6: for a gateway id g with no prior binding, two successive events
carrying only that gateway id resolve to the same placeholder patient:
the first event resolves to the placeholder "unassigned" and records a
binding from g to it, and the second event's binding lookup finds that
binding and returns the same patient id. -/
theorem gateway_resolution_stable (st : Store) (g : String) (hg : g ≠ "")
    (hnb : find_binding_by_gateway st g = none) :
    (resolveEvent st [("gatewayId", JVal.jstr g)]).1 = "unassigned" ∧
    find_binding_by_gateway (resolveEvent st [("gatewayId", JVal.jstr g)]).2 g =
      some "unassigned" ∧
    (resolveEvent (resolveEvent st [("gatewayId", JVal.jstr g)]).2
        [("gatewayId", JVal.jstr g)]).1 =
      (resolveEvent st [("gatewayId", JVal.jstr g)]).1 := by
  rw [resolveEvent_gateway_only st g hg, hnb]
  dsimp only
  have hfb := find_binding_upsert_self
    (upsert_patient_row st "unassigned" "Unassigned") g "unassigned"
  refine ⟨rfl, hfb, ?_⟩
  rw [resolveEvent_gateway_only _ g hg, hfb]

/-- Witness for C6 at the fresh gateway id "GW-1" on the empty store. -/
theorem gateway_resolution_stable_witness :
    (resolveEvent ⟨[], [], []⟩ [("gatewayId", JVal.jstr "GW-1")]).1 = "unassigned" ∧
    find_binding_by_gateway
      (resolveEvent ⟨[], [], []⟩ [("gatewayId", JVal.jstr "GW-1")]).2 "GW-1" =
      some "unassigned" ∧
    (resolveEvent (resolveEvent ⟨[], [], []⟩ [("gatewayId", JVal.jstr "GW-1")]).2
        [("gatewayId", JVal.jstr "GW-1")]).1 =
      (resolveEvent ⟨[], [], []⟩ [("gatewayId", JVal.jstr "GW-1")]).1 :=
  gateway_resolution_stable ⟨[], [], []⟩ "GW-1" (by decide) rfl

/-! ### Partial-batch resilience -/

theorem processEvent_eq (parseIso : String → Option String) (now : String)
    (st : Store) (r : JObj) (rows : List MRow)
    (hp : normalize_one parseIso now r (resolveEvent st r).1 = some rows) :
    processEvent parseIso now st r =
      some (rows.foldl append_vital_row (resolveEvent st r).2, rows.length) := by
  unfold processEvent
  rcases hres : resolveEvent st r with ⟨p, st1⟩
  rw [hres] at hp
  dsimp only at hp ⊢
  rw [hp]

/-- C4: for a three-event array whose second event matches no recognized
shape (it normalizes to zero rows whatever patient id it resolves to)
while the first and third each normalize to one row, the batch is not
aborted: the handler inserts exactly the rows normalized from the first
and third events and reports inserted = 2. -/
theorem webhook_tenovi_partial_batch (parseIso : String → Option String)
    (now : String) (st : Store) (e1 e2 e3 : JObj) (r1 r3 : String → MRow)
    (h1 : ∀ pid, normalize_one parseIso now e1 pid = some [r1 pid])
    (h2 : ∀ pid, normalize_one parseIso now e2 pid = some [])
    (h3 : ∀ pid, normalize_one parseIso now e3 pid = some [r3 pid]) :
    let p1 := (resolveEvent st e1).1
    let stA := append_vital_row (resolveEvent st e1).2 (r1 p1)
    let stB := (resolveEvent stA e2).2
    let p3 := (resolveEvent stB e3).1
    let stC := append_vital_row (resolveEvent stB e3).2 (r3 p3)
    webhook_tenovi parseIso now st [e1, e2, e3] = some (stC, 2) ∧
    stC.vitals = st.vitals ++ [r1 p1, r3 p3] := by
  intro p1 stA stB p3 stC
  have hA : processEvent parseIso now st e1 = some (stA, 1) :=
    processEvent_eq parseIso now st e1 [r1 p1] (h1 p1)
  have hB : processEvent parseIso now stA e2 = some (stB, 0) :=
    processEvent_eq parseIso now stA e2 [] (h2 _)
  have hC : processEvent parseIso now stB e3 = some (stC, 1) :=
    processEvent_eq parseIso now stB e3 [r3 p3] (h3 p3)
  constructor
  · simp only [webhook_tenovi, hA, hB, hC]
  · have hCv : stC.vitals = stB.vitals ++ [r3 p3] := by
      show (resolveEvent stB e3).2.vitals ++ [r3 p3] = stB.vitals ++ [r3 p3]
      rw [resolveEvent_vitals]
    have hBv : stB.vitals = stA.vitals := resolveEvent_vitals stA e2
    have hAv : stA.vitals = st.vitals ++ [r1 p1] := by
      show (resolveEvent st e1).2.vitals ++ [r1 p1] = st.vitals ++ [r1 p1]
      rw [resolveEvent_vitals]
    rw [hCv, hBv, hAv, List.append_assoc]
    rfl

/-- Witness for C4: a pulse event, an unrecognizable note event, and an
spo2 event; the handler reports inserted = 2 and stores exactly the
pulse and spo2 rows. -/
theorem webhook_tenovi_partial_batch_witness :
    webhook_tenovi (fun _ => none) "T" ⟨[], [], []⟩
      [[("patient_id", JVal.jstr "p1"), ("metric", JVal.jstr "pulse"),
        ("value", JVal.jstr "70")],
       [("note", JVal.jstr "hi")],
       [("patient_id", JVal.jstr "p1"), ("metric", JVal.jstr "spo2"),
        ("value", JVal.jstr "98")]] =
      some (⟨[("p1", "Patient p1"), ("unassigned", "Unassigned")], [],
        [⟨"p1", "T", "pulse", .jnum (((70 : Nat) : Rat)), .jnull, .jstr "", "tenovi",
          [("patient_id", JVal.jstr "p1"), ("metric", JVal.jstr "pulse"),
           ("value", JVal.jstr "70")]⟩,
         ⟨"p1", "T", "spo2", .jnum (((98 : Nat) : Rat)), .jnull, .jstr "", "tenovi",
          [("patient_id", JVal.jstr "p1"), ("metric", JVal.jstr "spo2"),
           ("value", JVal.jstr "98")]⟩]⟩, 2) := by
  have h := webhook_tenovi_partial_batch (fun _ => none) "T" ⟨[], [], []⟩
    [("patient_id", JVal.jstr "p1"), ("metric", JVal.jstr "pulse"),
     ("value", JVal.jstr "70")]
    [("note", JVal.jstr "hi")]
    [("patient_id", JVal.jstr "p1"), ("metric", JVal.jstr "spo2"),
     ("value", JVal.jstr "98")]
    (fun pid => ⟨pid, "T", "pulse", .jnum (((70 : Nat) : Rat)), .jnull, .jstr "", "tenovi",
      [("patient_id", JVal.jstr "p1"), ("metric", JVal.jstr "pulse"),
       ("value", JVal.jstr "70")]⟩)
    (fun pid => ⟨pid, "T", "spo2", .jnum (((98 : Nat) : Rat)), .jnull, .jstr "", "tenovi",
      [("patient_id", JVal.jstr "p1"), ("metric", JVal.jstr "spo2"),
       ("value", JVal.jstr "98")]⟩)
    (fun pid => rfl) (fun pid => rfl) (fun pid => rfl)
  exact h.1

/-- C7: when a webhook secret is configured and the caller-supplied
secret (the first nonempty of the three accepted headers, stripped of
surrounding whitespace) differs from it, /webhook fails with 401
Unauthorized and has no side effects (an error result never commits the
transaction, so the vitals table is untouched); when no secret is
configured, the check is bypassed and the request never fails with
401. -/
theorem webhook_auth (cfgKey h1 h2 h3 : String)
    (jsonParse : String → Option JVal) (parseIso : String → Option String)
    (now body : String) (gmap : List (String × Option String))
    (vitals : List VRow) :
    (cfgKey ≠ "" → get_webhook_key h1 h2 h3 ≠ cfgKey →
      webhook cfgKey h1 h2 h3 jsonParse parseIso now body gmap vitals =
        .error .unauthorized) ∧
    webhook "" h1 h2 h3 jsonParse parseIso now body gmap vitals ≠
      .error .unauthorized := by
  constructor
  · intro hk hs
    unfold webhook
    rw [if_pos ⟨hk, hs⟩]
  · unfold webhook
    rw [if_neg (by simp)]
    dsimp only
    split
    · intro hcon
      simp at hcon
    · split
      · intro hcon
        simp at hcon
      · intro hcon
        simp at hcon

/-- Witness for C7: configured key "secret", caller sends "wrong" → 401;
no configured key → never 401. -/
theorem webhook_auth_witness :
    webhook "secret" "wrong" "" "" (fun _ => none) (fun _ => none) "T" "" [] [] =
      .error .unauthorized ∧
    webhook "" "wrong" "" "" (fun _ => none) (fun _ => none) "T" "" [] [] ≠
      .error .unauthorized := by
  have h := webhook_auth "secret" "wrong" "" "" (fun _ => none) (fun _ => none)
    "T" "" [] []
  have h2 := webhook_auth "" "wrong" "" "" (fun _ => none) (fun _ => none)
    "T" "" [] []
  exact ⟨h.1 (by decide) (by decide), h2.2⟩

/-- C3 divergence: /webhook calls req.json() before any empty-body
check, and json.loads raises on a zero-length body, so an empty POST
body with valid (bypassed) auth yields the JSON-decode server error and
no ok=true, inserted=0 acknowledgment. -/
theorem webhook_empty_body_error (jsonParse : String → Option JVal)
    (parseIso : String → Option String) (now : String)
    (gmap : List (String × Option String)) (vitals : List VRow)
    (hp : jsonParse "" = none) :
    webhook "" "" "" "" jsonParse parseIso now "" gmap vitals =
      .error .jsonDecodeError := by
  unfold webhook
  rw [if_neg (by simp)]
  dsimp only
  rw [hp]

/-- Witness for C3: the empty body under a parser that (like json.loads)
rejects the empty string. -/
theorem webhook_empty_body_error_witness :
    webhook "" "" "" "" (fun _ => none) (fun _ => none) "T" "" [] [] =
      .error .jsonDecodeError :=
  webhook_empty_body_error (fun _ => none) (fun _ => none) "T" [] [] rfl

/-- Every row /webhook builds carries a non-empty patient id. -/
theorem buildRow_patient_nonempty (parseIso : String → Option String)
    (now : String) (gmap : List (String × Option String)) (r : JObj)
    (row : VRow) (h : buildRow parseIso now gmap r = some row) :
    row.patient_id ≠ "" := by
  unfold buildRow at h
  cases hps : stripLowerE (pyOrJ (jget r "patient_id")
      (pyOrJ (jget r "patient") (.jstr ""))) with
  | none => rw [hps] at h; cases h
  | some patient0 =>
    rw [hps] at h
    cases hms : stripLowerE (pyOrJ (jget r "metric")
        (pyOrJ (jget r "type") (.jstr ""))) with
    | none => rw [hms] at h; cases h
    | some metric =>
      rw [hms] at h
      dsimp only at h
      have hr := (Option.some.inj h).symm
      rw [hr]
      dsimp only
      generalize lookupPatient gmap
        (norm_gatewayJ (pyOrJ (jget r "gateway_id") (pyOrJ (jget r "gateway")
          (pyOrJ (jget r "gateway_mac") (jget r "mac"))))) patient0 = p1
      split
      · decide
      · assumption

theorem buildRows_patient_nonempty (parseIso : String → Option String)
    (now : String) (gmap : List (String × Option String)) :
    ∀ (events : List JVal) (rows : List VRow),
      buildRows parseIso now gmap events = some rows →
      ∀ row ∈ rows, row.patient_id ≠ "" := by
  intro events
  induction events with
  | nil =>
    intro rows h row hrow
    cases h
    cases hrow
  | cons e rest ih =>
    intro rows h row hrow
    unfold buildRows at h
    cases e with
    | jobj r =>
      dsimp only at h
      cases hb : buildRow parseIso now gmap r with
      | none => rw [hb] at h; cases h
      | some row1 =>
        rw [hb] at h
        dsimp only at h
        cases hrest : buildRows parseIso now gmap rest with
        | none => rw [hrest] at h; cases h
        | some rows1 =>
          rw [hrest] at h
          cases h
          rcases List.mem_cons.mp hrow with heq | hmem
          · rw [heq]
            exact buildRow_patient_nonempty parseIso now gmap r row1 hb
          · exact ih rows1 hrest row hmem
    | jnull => cases h
    | jbool b => cases h
    | jnum q => cases h
    | jstr s => cases h
    | jarr xs => cases h

/-- C9: /webhook preserves the invariant that every persisted
measurement row has a non-empty patient id: each event is stored
attributed to some patient — the explicit field, the gateway-mapped
patient, or the sentinel "unknown" when nothing resolves — and a
request is never rejected for lack of identity. -/
theorem webhook_patient_id_invariant (cfgKey h1 h2 h3 : String)
    (jsonParse : String → Option JVal) (parseIso : String → Option String)
    (now body : String) (gmap : List (String × Option String))
    (vitals vitals1 : List VRow) (resp : WResp)
    (hok : webhook cfgKey h1 h2 h3 jsonParse parseIso now body gmap vitals =
      .ok (vitals1, resp))
    (hinv : ∀ row ∈ vitals, row.patient_id ≠ "") :
    ∀ row ∈ vitals1, row.patient_id ≠ "" := by
  unfold webhook at hok
  by_cases hk : cfgKey ≠ "" ∧ get_webhook_key h1 h2 h3 ≠ cfgKey
  · rw [if_pos hk] at hok
    cases hok
  · rw [if_neg hk] at hok
    dsimp only at hok
    split at hok
    · cases hok
    · split at hok
      · cases hok
      · rename_i rows hb
        injection hok with hpair
        have hv : vitals1 = vitals ++ rows := (congrArg Prod.fst hpair).symm
        intro row hrow
        rw [hv] at hrow
        rcases List.mem_append.mp hrow with hmem | hmem
        · exact hinv row hmem
        · exact buildRows_patient_nonempty parseIso now gmap _ rows hb row hmem

/-- Witness for C9: an event with neither patient identifier nor
gateway is stored under the sentinel "unknown", and the invariant holds
on the resulting table. -/
theorem webhook_patient_id_invariant_witness :
    webhook "" "" "" "" (fun _ => some (.jobj [])) (fun _ => none) "T" "x" [] [] =
      .ok ([⟨"unknown", "", .jnull, "T", .jnull, .jnull, none, []⟩], ⟨true, 1⟩) ∧
    ∀ row ∈ [(⟨"unknown", "", .jnull, "T", .jnull, .jnull, none, []⟩ : VRow)],
      row.patient_id ≠ "" := by
  refine ⟨rfl, ?_⟩
  exact webhook_patient_id_invariant "" "" "" "" (fun _ => some (.jobj []))
    (fun _ => none) "T" "x" [] [] _ _ rfl (fun row hr => absurd hr (by simp))

theorem strLeL_total (xs ys : List Char) :
    strLeL xs ys = true ∨ strLeL ys xs = true := by
  induction xs generalizing ys with
  | nil => left; rfl
  | cons a as ih =>
    cases ys with
    | nil => right; rfl
    | cons b bs =>
      by_cases h1 : a.toNat < b.toNat
      · left
        unfold strLeL
        rw [if_pos h1]
      · by_cases h2 : a.toNat = b.toNat
        · rcases ih bs with h | h
          · left
            unfold strLeL
            rw [if_neg h1, if_pos h2]
            exact h
          · right
            unfold strLeL
            rw [if_neg (by omega), if_pos h2.symm]
            exact h
        · right
          unfold strLeL
          rw [if_pos (by omega)]

theorem chain'_insertBy {α : Type} (le : α → α → Bool)
    (htot : ∀ a b, le a b = true ∨ le b a = true) (a : α) (l : List α)
    (hl : List.Chain' (fun x y => le x y = true) l) :
    List.Chain' (fun x y => le x y = true) (insertBy le a l) := by
  induction l with
  | nil => simp [insertBy]
  | cons b bs ih =>
    unfold insertBy
    by_cases hab : le a b = true
    · rw [if_pos hab]
      exact List.chain'_cons.mpr ⟨hab, hl⟩
    · rw [if_neg hab]
      have hba : le b a = true := (htot a b).resolve_left hab
      cases bs with
      | nil =>
        simp only [insertBy]
        exact List.chain'_cons.mpr ⟨hba, List.chain'_singleton a⟩
      | cons c cs =>
        have hbc : le b c = true := (List.chain'_cons.mp hl).1
        have hins := ih hl.tail
        unfold insertBy at hins ⊢
        by_cases hac : le a c = true
        · rw [if_pos hac] at hins ⊢
          exact List.chain'_cons.mpr ⟨hba, hins⟩
        · rw [if_neg hac] at hins ⊢
          exact List.chain'_cons.mpr ⟨hbc, hins⟩

theorem chain'_sortBy {α : Type} (le : α → α → Bool)
    (htot : ∀ a b, le a b = true ∨ le b a = true) (l : List α) :
    List.Chain' (fun x y => le x y = true) (sortBy le l) := by
  induction l with
  | nil => simp [sortBy]
  | cons a as ih => exact chain'_insertBy le htot a (sortBy le as) ih

theorem chain'_take {α : Type} {R : α → α → Prop} (n : Nat) (l : List α)
    (h : List.Chain' R l) : List.Chain' R (l.take n) := by
  induction l generalizing n with
  | nil => simp
  | cons a as ih =>
    cases n with
    | zero => simp
    | succ m =>
      rw [List.take_succ_cons]
      cases as with
      | nil => simp
      | cons b bs =>
        cases m with
        | zero =>
          simp
        | succ k =>
          rw [List.take_succ_cons]
          have hr := (List.chain'_cons.mp h).1
          have ht : List.Chain' R ((b :: bs).take (k + 1)) := ih (k + 1) h.tail
          rw [List.take_succ_cons] at ht
          exact List.chain'_cons.mpr ⟨hr, ht⟩

/-- C5 counterexample: with two stored rows a day apart and no filters,
/vitals returns the newer row first — the output is not ordered by
timestamp ascending. -/
theorem get_vitals_not_ascending_counterexample :
    get_vitals
      [⟨"p", "pulse", .jnum 1, "2024-01-01T00:00:00Z", .jnull, .jnull, none, []⟩,
       ⟨"p", "pulse", .jnum 2, "2024-01-02T00:00:00Z", .jnull, .jnull, none, []⟩]
      none none none 500 =
      [⟨"p", "pulse", .jnum 2, "2024-01-02T00:00:00Z", .jnull, none⟩,
       ⟨"p", "pulse", .jnum 1, "2024-01-01T00:00:00Z", .jnull, none⟩] ∧
    ¬ List.Chain'
      (fun a b : QRow => strLe a.timestamp_utc b.timestamp_utc = true)
      (get_vitals
        [⟨"p", "pulse", .jnum 1, "2024-01-01T00:00:00Z", .jnull, .jnull, none, []⟩,
         ⟨"p", "pulse", .jnum 2, "2024-01-02T00:00:00Z", .jnull, .jnull, none, []⟩]
        none none none 500) := by
  constructor
  · rfl
  · intro hc
    have h := (List.chain'_cons.mp hc).1
    cases h

/-- C5 amended: for every query, /vitals returns the rows ordered by
timestamp descending (most recent first): each returned row's
timestamp_utc is greater than or equal to the next one's. -/
theorem get_vitals_sorted_descending (rows : List VRow)
    (pid metric cut : Option String) (lim : Int) :
    List.Chain'
      (fun a b : QRow => strLe b.timestamp_utc a.timestamp_utc = true)
      (get_vitals rows pid metric cut lim) := by
  unfold get_vitals
  rw [List.chain'_map]
  apply chain'_take
  apply chain'_sortBy
  intro a b
  exact strLeL_total b.timestamp_utc.data a.timestamp_utc.data

/-- C1: submitting the same body twice yields exactly one set of
inserted records: from a state that has not seen the body, the first
delivery inserts its normalized records and marks the hash; the second
delivery hits the guard (before parsing — the normalizer is not even
consulted), inserts nothing, and responds ok with duplicate=true. -/
theorem ingestBody_idempotent (normalizeBody : String → List MRow)
    (st : IngestState) (body : String) (hnew : body ∉ st.seen) :
    (ingestBody normalizeBody st body).2 =
      ⟨true, (normalizeBody body).length, false⟩ ∧
    (ingestBody normalizeBody st body).1.rows =
      st.rows ++ normalizeBody body ∧
    (ingestBody normalizeBody (ingestBody normalizeBody st body).1 body).2 =
      ⟨true, 0, true⟩ ∧
    (ingestBody normalizeBody (ingestBody normalizeBody st body).1 body).1.rows =
      st.rows ++ normalizeBody body := by
  unfold ingestBody
  rw [if_neg hnew]
  dsimp only
  rw [if_pos (List.mem_cons_self body st.seen)]
  exact ⟨rfl, rfl, rfl, rfl⟩

/-- Witness for C1: a concrete body against the empty guard state under
a normalizer that yields one record per delivery — the second delivery
inserts nothing and is marked duplicate. -/
theorem ingestBody_idempotent_witness :
    (ingestBody (fun b => [⟨"p", "T", "pulse", .jnum 1, .jnull, .jstr "", "tenovi",
        [("body", .jstr b)]⟩]) ⟨[], []⟩ "BODY").2 = ⟨true, 1, false⟩ ∧
    (ingestBody (fun b => [⟨"p", "T", "pulse", .jnum 1, .jnull, .jstr "", "tenovi",
        [("body", .jstr b)]⟩]) ⟨[], []⟩ "BODY").1.rows =
      [] ++ [⟨"p", "T", "pulse", .jnum 1, .jnull, .jstr "", "tenovi",
        [("body", .jstr "BODY")]⟩] ∧
    (ingestBody (fun b => [⟨"p", "T", "pulse", .jnum 1, .jnull, .jstr "", "tenovi",
        [("body", .jstr b)]⟩])
      (ingestBody (fun b => [⟨"p", "T", "pulse", .jnum 1, .jnull, .jstr "", "tenovi",
        [("body", .jstr b)]⟩]) ⟨[], []⟩ "BODY").1 "BODY").2 = ⟨true, 0, true⟩ ∧
    (ingestBody (fun b => [⟨"p", "T", "pulse", .jnum 1, .jnull, .jstr "", "tenovi",
        [("body", .jstr b)]⟩])
      (ingestBody (fun b => [⟨"p", "T", "pulse", .jnum 1, .jnull, .jstr "", "tenovi",
        [("body", .jstr b)]⟩]) ⟨[], []⟩ "BODY").1 "BODY").1.rows =
      [] ++ [⟨"p", "T", "pulse", .jnum 1, .jnull, .jstr "", "tenovi",
        [("body", .jstr "BODY")]⟩] :=
  ingestBody_idempotent
    (fun b => [⟨"p", "T", "pulse", .jnum 1, .jnull, .jstr "", "tenovi",
      [("body", .jstr b)]⟩]) ⟨[], []⟩ "BODY" (by simp)

end Quantaira
